import Mathlib

/-!
Shallow embedding of the `OverridePureVirtuals` clangd tweak
(clang-tools-extra/clangd/refactor/tweaks/AddPureVirtualOverride.cpp).

The tweak reads clang's semantic model (CXXRecordDecl, CXXMethodDecl,
AccessSpecDecl, SourceLocation).  We embed exactly the slice of that model the
tweak consumes:

* `MethodDecl` carries the attributes the tweak reads from `CXXMethodDecl`:
  the rendered return type (`getReturnType().getAsString()`), the name
  (`getNameAsString()`), the parameter list as (rendered type, name) pairs,
  the const flag, the pure-virtual flag, the canonical identity of the
  declaration (`getCanonicalDecl()`, modelled as a `Nat` key), and the
  canonical identities of the methods it directly overrides
  (`overridden_methods()` with `getCanonicalDecl()` applied, as the tweak
  does before set insertion).
* `CXXRecordDecl` carries the class name, the semantic `isAbstract` bit
  (computed by clang's externally owned semantic model; concrete instances
  below set it according to C++ semantics), the ordered direct-base list where
  each base holds the inheritance access specifier and the result of
  `getType()->getAsCXXRecordDecl()` (`none` models an unresolvable base, i.e.
  a null pointer), the ordered own member methods, the brace range of the
  class body as byte offsets (`getBraceRange()`), and the ordered
  `AccessSpecDecl`s of the body as (access, colon byte offset) pairs
  (`getColonLoc()`).

Source positions (`SourceLocation`) are byte offsets into the main file;
`getLocWithOffset(k)` is `· + k`.  Record values in the tree are the canonical
declarations, so `getCanonicalDecl()` on a record is the identity here.
-/

inductive AccessSpec : Type where
  | AS_public : AccessSpec
  | AS_protected : AccessSpec
  | AS_private : AccessSpec
deriving DecidableEq, Repr, BEq

structure MethodDecl : Type where
  name : String
  retType : String
  params : List (String × String)
  isConst : Bool
  isPure : Bool
  canonId : Nat
  overridden : List Nat
deriving DecidableEq, Repr

inductive CXXRecordDecl : Type where
  | mk (name : String) (isAbstract : Bool)
       (bases : List (AccessSpec × Option CXXRecordDecl))
       (methods : List MethodDecl)
       (braceBegin : Nat) (braceEnd : Nat)
       (accessSpecDecls : List (AccessSpec × Nat)) : CXXRecordDecl

def CXXRecordDecl.name : CXXRecordDecl → String
  | .mk n _ _ _ _ _ _ => n

def CXXRecordDecl.isAbstract : CXXRecordDecl → Bool
  | .mk _ a _ _ _ _ _ => a

def CXXRecordDecl.bases : CXXRecordDecl → List (AccessSpec × Option CXXRecordDecl)
  | .mk _ _ b _ _ _ _ => b

def CXXRecordDecl.methods : CXXRecordDecl → List MethodDecl
  | .mk _ _ _ m _ _ _ => m

def CXXRecordDecl.braceBegin : CXXRecordDecl → Nat
  | .mk _ _ _ _ b _ _ => b

def CXXRecordDecl.braceEnd : CXXRecordDecl → Nat
  | .mk _ _ _ _ _ e _ => e

def CXXRecordDecl.accessSpecDecls : CXXRecordDecl → List (AccessSpec × Nat)
  | .mk _ _ _ _ _ _ a => a

mutual

/-- The body of the recursive lambda `AddVirtualMethods` of
`getAllPureVirtualMethods` on a non-null decl: collect the class's own
pure-virtual methods (`copy_if` of `isPureVirtual` over `method_begin()..`,
in declaration order), then recurse into the bases.  There is no visited set
of any kind in the source. -/
def addVirtualMethodsRec : CXXRecordDecl → List MethodDecl
  | .mk _ _ bases methods _ _ _ =>
      methods.filter (fun m => m.isPure) ++ addVirtualMethodsOverBases bases

/-- The `for (const auto &Base : Decl->bases())` loop inside
`AddVirtualMethods`: recurse into each base in declared order whose
`getType()->getAsCXXRecordDecl()` is non-null (a null one is skipped by the
`if`), appending to the shared `Result` vector (here: concatenation in base
declaration order). -/
def addVirtualMethodsOverBases :
    List (AccessSpec × Option CXXRecordDecl) → List MethodDecl
  | [] => []
  | (_, none) :: rest => addVirtualMethodsOverBases rest
  | (_, some d) :: rest => addVirtualMethodsRec d ++ addVirtualMethodsOverBases rest

end

/-- The recursive lambda `AddVirtualMethods` itself: the `if (!Decl) return;`
null guard at its entry, then the body above. -/
def addVirtualMethods : Option CXXRecordDecl → List MethodDecl
  | none => []
  | some d => addVirtualMethodsRec d

/-- Model of `getAllPureVirtualMethods`: run `AddVirtualMethods` over each root decl,
appending into one shared result vector. -/
def getAllPureVirtualMethods (decls : List CXXRecordDecl) : List MethodDecl :=
  (decls.map (fun d => addVirtualMethods (some d))).flatten

/-- Model of `getOverridenMethods`: for every member of `D`, append the list of methods
it directly overrides (`overridden_methods()`); the embedding stores those as
canonical-identity keys, which is also what the caller reduces them to. -/
def getOverridenMethods (d : CXXRecordDecl) : List Nat :=
  (d.methods.map (fun m => m.overridden)).flatten

/-- One step of `getSpecifierLocations`'s loop body
`Locs[ASD->getAccess()] = ASD->getColonLoc()`: a `std::map` assignment, its
observable lookup semantics being that the stored value for the key is
replaced. -/
def mapStore (m : AccessSpec → Option Nat) (k : AccessSpec) (v : Nat) :
    AccessSpec → Option Nat :=
  fun q => if q == k then some v else m q

/-- Model of `getSpecifierLocations`: walk `D->decls()` in declaration order, storing
the colon location of every `AccessSpecDecl` into a map keyed by its access,
later declarations overwriting earlier ones with the same access. -/
def getSpecifierLocations (d : CXXRecordDecl) :
    AccessSpec → Option Nat :=
  d.accessSpecDecls.foldl (fun m p => mapStore m p.1 p.2) (fun _ => none)

/-- The class-level test of `OverridePureVirtuals::prepare`: `std::any_of`
over the direct bases, true when `getType()->getAsCXXRecordDecl()` is non-null
and that declaration is abstract. -/
def hasAbstractBase (d : CXXRecordDecl) : Bool :=
  d.bases.any (fun b =>
    match b.2 with
    | some bd => bd.isAbstract
    | none => false)

/-- Model of `OverridePureVirtuals::prepare`.  The selection is modelled as what the
code reads from it: `none` when `commonAncestor()` is null, `some none` when
the common ancestor is not a `CXXRecordDecl` (so `ASTNode.get` returns null),
`some (some d)` otherwise.  `prepare` is the tweak's availability check. -/
def prepare : Option (Option CXXRecordDecl) → Bool
  | some (some d) => hasAbstractBase d
  | _ => false

/-- The base-resolution loop of `OverridePureVirtuals::preApply`:
`Base.getType()->getAsCXXRecordDecl()->getCanonicalDecl()` dereferences the
result of `getAsCXXRecordDecl()` with no null check, so an unresolvable base
is a null-pointer dereference; `none` models that crash.  Otherwise the loop
collects (inheritance access specifier, canonical base decl) pairs in base
declaration order (record values here are canonical, so `getCanonicalDecl()`
is the identity). -/
def resolveBases (d : CXXRecordDecl) :
    Option (List (AccessSpec × CXXRecordDecl)) :=
  d.bases.mapM (fun b => b.2.map (fun bd => (b.1, bd)))

/-- The walker loop of `preApply`:
`for (auto &Var : Bases) BaseVirtualMethods = getAllPureVirtualMethods({Var.second});`
assigns (never appends), so after the loop the vector holds the methods of the
last base only — or stays empty when there are no bases. -/
def baseVirtualMethodsOf (bases : List (AccessSpec × CXXRecordDecl)) :
    List MethodDecl :=
  bases.foldl (fun _ b => getAllPureVirtualMethods [b.2]) []

/-- The tail of `preApply`: build `OverridenSet` from the canonical identities
of the directly overridden methods of the target's own members, then
`copy_if` the collected base methods whose canonical identity is not in that
set into `MissingPureVirtualMethods`.  `none` models the crash of the
base-resolution loop. -/
def missingOf (d : CXXRecordDecl) : Option (List MethodDecl) :=
  (resolveBases d).map (fun bs =>
    (baseVirtualMethodsOf bs).filter
      (fun m => !((getOverridenMethods d).contains m.canonId)))

/-- Parameter rendering in `OverridePureVirtuals::apply`:
`formatv("{0} {1}", P->getType().getAsString(), P->getNameAsString())`. -/
def renderParam (p : String × String) : String :=
  p.1 ++ " " ++ p.2

/-- One method's fragment in `apply`: the `formatv` template
`"{0} {1}({2}) {3}override {{ static_assert(false, ... )"` with `{0}` the
return type, `{1}` the name, `{2}` the parameters joined by `", "`
(`llvm::join`), and `{3}` `"const "` when the method is const, else empty. -/
def renderMethod (m : MethodDecl) : String :=
  m.retType ++ " " ++ m.name ++ "(" ++
    String.intercalate ", " (m.params.map renderParam) ++ ") " ++
    (if m.isConst then "const " else "") ++
    "override \x7b static_assert(false, \"`" ++ m.name ++
    "` is unimplemented.\"); \x7d\n"

/-- The `Insertion` accumulation loop of `apply`: `Insertion += ...` over the
missing methods in order. -/
def insertionText (ms : List MethodDecl) : String :=
  ms.foldl (fun acc m => acc ++ renderMethod m) ""

/-- The insertion location of `apply`: start from
`getBraceRange().getBegin().getLocWithOffset(1)` (one byte past the opening
brace) and, when the specifier map has an entry for `public`, replace it by
that colon location `getLocWithOffset(2)` (two bytes past the colon). -/
def insertLocOf (d : CXXRecordDecl) : Nat :=
  match getSpecifierLocations d AccessSpec.AS_public with
  | some colonLoc => colonLoc + 2
  | none => d.braceBegin + 1

/-- Model of `tooling::Replacement`: replace `length`
bytes starting at `offset` by `text`. -/
structure Replacement : Type where
  offset : Nat
  length : Nat
  text : String
deriving DecidableEq, Repr

/-- Model of `OverridePureVirtuals::apply`: run `preApply` (whose base-resolution crash
propagates as `none`), render every missing method, and emit one replacement
of length 0 at the insertion location. -/
def applyTweak (d : CXXRecordDecl) : Option Replacement :=
  (missingOf d).map (fun ms =>
    { offset := insertLocOf d, length := 0, text := insertionText ms })

/-- Applying a replacement to source text (the host's text-edit capability):
replace bytes `[offset, offset+length)` with the replacement text.  Text is a
byte/character list. -/
def applyEdit (s : List Char) (r : Replacement) : List Char :=
  s.take r.offset ++ r.text.data ++ s.drop (r.offset + r.length)

/-- The semantic model of the class after the insert-only edit: the edit adds
member declarations inside the body and touches nothing else, so re-parsing
yields the same class with the new methods appended to its member list; name,
base list and abstractness of every other class are untouched. -/
def addMethods (d : CXXRecordDecl) (ms : List MethodDecl) : CXXRecordDecl :=
  .mk d.name d.isAbstract d.bases (d.methods ++ ms) d.braceBegin
    (d.braceEnd + (insertionText ms).length) d.accessSpecDecls

/-! Claim-side (specification-worded) definitions, for refinement
comparison with the source-derived renderer. -/

/-- Placeholder body per the spec's words: a compile-time assertion naming
the method, terminated by a newline. -/
def specPlaceholder (m : MethodDecl) : String :=
  "\x7b static_assert(false, \"`" ++ m.name ++ "` is unimplemented.\"); \x7d\n"

/-- Fragment shape per the claim: return type, a space, the name, the
parameter list in parentheses with each parameter rendered as type, single
space, name, joined by `", "`, then `"const "` exactly when const-qualified,
then `override` and the placeholder body. -/
def renderMethodSpec (m : MethodDecl) : String :=
  m.retType ++ " " ++ m.name ++ "(" ++
    String.intercalate ", " (m.params.map (fun p => p.1 ++ " " ++ p.2)) ++
    ") " ++ (if m.isConst then "const " else "") ++ "override " ++
    specPlaceholder m

/-- Concatenation of fragments in missing-set order, per the claim. -/
def specConcat : List MethodDecl → String
  | [] => ""
  | m :: ms => renderMethodSpec m ++ specConcat ms

/-- Location of the last `AccessSpecDecl` of a given access kind, in
declaration order: the reference value the specifier map is proved equal
to. -/
def lastLoc : List (AccessSpec × Nat) → AccessSpec → Option Nat
  | [], _ => none
  | p :: rest, k =>
      match lastLoc rest k with
      | some v => some v
      | none => if k == p.1 then some p.2 else none

/-! Concrete hierarchies used to settle the claims.  Canonical identities
are arbitrary distinct keys; `overridden` fields follow C++ override
semantics (a member overrides the method of the nearest base declaring it);
`isAbstract` flags are set per C++ semantics of each hierarchy. -/

/-- C1: `B1` declares pure virtual `F1`. -/
def mC1F1 : MethodDecl := ⟨"F1", "void", [], false, true, 1, []⟩

/-- C1: `B2` declares pure virtual `F2(int P1, const int &P2)`. -/
def mC1F2 : MethodDecl :=
  ⟨"F2", "void", [("int", "P1"), ("const int &", "P2")], false, true, 2, []⟩

def recC1B1 : CXXRecordDecl := .mk "B1" true [] [mC1F1] 0 100 []

def recC1B2 : CXXRecordDecl := .mk "B2" true [] [mC1F2] 0 100 []

/-- C1: `class Derived : public B1, public B2` with no members of its own
and a `public:` section whose colon is at offset 210. -/
def recC1T : CXXRecordDecl :=
  .mk "Derived" false [(.AS_public, some recC1B1), (.AS_public, some recC1B2)]
    [] 200 300 [(.AS_public, 210)]

/-- C2: the diamond's common ancestor `V` declares pure virtual `Run`. -/
def mC2Run : MethodDecl := ⟨"Run", "void", [], false, true, 10, []⟩

def recC2V : CXXRecordDecl := .mk "V" true [] [mC2Run] 0 50 []

def recC2A1 : CXXRecordDecl := .mk "A1" true [(.AS_public, some recC2V)] [] 0 50 []

def recC2A2 : CXXRecordDecl := .mk "A2" true [(.AS_public, some recC2V)] [] 0 50 []

/-- C2: `D : A1, A2` — the diamond, `V` reachable via two paths. -/
def recC2D : CXXRecordDecl :=
  .mk "D" true [(.AS_public, some recC2A1), (.AS_public, some recC2A2)] [] 0 50 []

/-- C2: the selected class, whose single direct base is the diamond. -/
def recC2T : CXXRecordDecl := .mk "T" false [(.AS_public, some recC2D)] [] 60 90 []

/-- C3: root abstract slot `F` (canonical identity 1). -/
def mC3F : MethodDecl := ⟨"F", "void", [], false, true, 1, []⟩

/-- C3: second abstract slot `G`, keeping `Mid` abstract. -/
def mC3G : MethodDecl := ⟨"G", "void", [], false, true, 2, []⟩

def recC3V : CXXRecordDecl := .mk "V" true [] [mC3F, mC3G] 0 50 []

/-- C3: `Mid::F` non-pure, directly overriding the root slot `F`. -/
def mC3MidF : MethodDecl := ⟨"F", "void", [], false, false, 3, [1]⟩

def recC3Mid : CXXRecordDecl :=
  .mk "Mid" true [(.AS_public, some recC3V)] [mC3MidF] 0 50 []

/-- C3: the target's member `F`, directly overriding `Mid::F` and hence
transitively overriding the root slot `F`. -/
def mC3TF : MethodDecl := ⟨"F", "void", [], false, false, 4, [3]⟩

def recC3T : CXXRecordDecl :=
  .mk "T" false [(.AS_public, some recC3Mid)] [mC3TF] 60 90 []

/-- C4: `Base` declares pure virtual `F`. -/
def mC4F : MethodDecl := ⟨"F", "void", [], false, true, 1, []⟩

def recC4Base : CXXRecordDecl := .mk "Base" true [] [mC4F] 0 50 []

/-- C4: `Derived::F`, overriding the only inherited pure virtual. -/
def mC4DF : MethodDecl := ⟨"F", "void", [], false, false, 2, [1]⟩

/-- C4: a class whose members already override every inherited pure-virtual
operation of its abstract base. -/
def recC4Der : CXXRecordDecl :=
  .mk "Derived" false [(.AS_public, some recC4Base)] [mC4DF] 60 90 []

/-- C5: `Base` declares pure virtual `F1`. -/
def mC5F1 : MethodDecl := ⟨"F1", "void", [], false, true, 1, []⟩

def recC5Base : CXXRecordDecl := .mk "Base" true [] [mC5F1] 0 50 []

/-- C5: the selected empty derived class, before the edit. -/
def recC5Der : CXXRecordDecl :=
  .mk "Derived" false [(.AS_public, some recC5Base)] [] 60 90 []

/-- C5: the member the inserted stub re-parses to: an override of
`Base::F1`. -/
def mC5Stub : MethodDecl := ⟨"F1", "void", [], false, false, 2, [1]⟩

/-- C5: the semantic model of the derived class after applying the edit. -/
def recC5After : CXXRecordDecl := addMethods recC5Der [mC5Stub]

/-- C6: a class one of whose direct bases has no resolvable class
declaration (`getAsCXXRecordDecl()` returns null). -/
def recC6T : CXXRecordDecl := .mk "T" false [(.AS_public, none)] [] 0 50 []

/-- C8: class body braces at offsets 10 and 20, with a `public:` section
whose colon (offset 19) is the last character before the closing brace. -/
def recC8Pub : CXXRecordDecl := .mk "X" false [] [] 10 20 [(.AS_public, 19)]

/-- C8: class body braces at offsets 10 and 20, no visibility section. -/
def recC8NoPub : CXXRecordDecl := .mk "Y" false [] [] 10 20 []

/-- C9: a class with no bases: the missing set is empty and the emitted
edit inserts the empty string. -/
def recC9 : CXXRecordDecl := .mk "S" false [] [] 0 10 []

/-- C10: a class body with two `public` visibility sections, colons at
offsets 5 and 20. -/
def recC10 : CXXRecordDecl :=
  .mk "Z" false [] [] 0 60 [(.AS_public, 5), (.AS_public, 20)]


/-! Helper lemmas (shared). -/

theorem renderMethod_eq_renderMethodSpec (m : MethodDecl) :
    renderMethod m = renderMethodSpec m := by
  unfold renderMethod renderMethodSpec specPlaceholder
  rw [show ("override \x7b static_assert(false, \"`" : String) =
        "override " ++ "\x7b static_assert(false, \"`" from rfl]
  simp only [show renderParam = fun p : String × String => p.1 ++ " " ++ p.2 from rfl]
  simp [String.append_assoc]
  rfl

theorem foldl_render_append (ms : List MethodDecl) :
    ∀ acc : String,
      ms.foldl (fun a m => a ++ renderMethod m) acc = acc ++ specConcat ms := by
  induction ms with
  | nil => intro acc; simp [specConcat, String.append_empty]
  | cons m rest ih =>
      intro acc
      rw [List.foldl_cons, ih, specConcat, renderMethod_eq_renderMethodSpec,
        String.append_assoc]

theorem insertionText_eq_specConcat (ms : List MethodDecl) :
    insertionText ms = specConcat ms := by
  rw [insertionText, foldl_render_append, String.empty_append]

theorem foldl_mapStore_lookup (l : List (AccessSpec × Nat)) :
    ∀ (m : AccessSpec → Option Nat) (k : AccessSpec),
      (l.foldl (fun acc p => mapStore acc p.1 p.2) m) k =
        match lastLoc l k with
        | some v => some v
        | none => m k := by
  induction l with
  | nil => intro m k; rfl
  | cons p rest ih =>
      intro m k
      rw [List.foldl_cons, ih]
      cases h : lastLoc rest k with
      | some v => simp [lastLoc, h]
      | none =>
          simp only [lastLoc, h, mapStore]
          cases hk : k == p.1 <;> simp [hk]

/-! Claim theorems. -/

/-- C1: refuted on the code; this theorem evaluates the embedded `preApply`
at the failing input.  `Derived` inherits from `B1` (pure virtual `F1`) and
`B2` (pure virtual `F2`); the loop
`for (auto &Var : Bases) BaseVirtualMethods = getAllPureVirtualMethods({Var.second});`
overwrites instead of appending, so the missing set holds only the last
base's `F2`, although `F1` is reachable from `B1` (second conjunct) and is
unimplemented. -/
theorem c1_only_last_base_collected :
    missingOf recC1T = some [mC1F2] ∧
    getAllPureVirtualMethods [recC1B1] = [mC1F1] ∧
    mC1F1 ∉ [mC1F2] := by decide

/-- C2 counterexample: in the diamond `T : D`, `D : A1, A2`, `A1 : V`,
`A2 : V` with pure virtual `V::Run`, the operation `Run` is reachable from a
common ancestor via two base paths yet appears twice — not exactly once — in
the missing set: the walker has no visited set. -/
theorem c2_diamond_duplicate_counterexample :
    missingOf recC2T = some [mC2Run, mC2Run] ∧
    ((missingOf recC2T).getD []).count mC2Run ≠ 1 := by decide

/-- C2 amended: the traversal deduplicates nothing; an abstract operation
reachable from a common ancestor via two base paths appears once per path —
twice here — in the missing set, and one stub is generated per
appearance. -/
theorem c2_one_stub_per_path :
    ((missingOf recC2T).getD []).count mC2Run = 2 ∧
    (applyTweak recC2T).map Replacement.text =
      some (renderMethod mC2Run ++ renderMethod mC2Run) := by decide

/-- C3 counterexample: the target's member `F` (canonical id 4) directly
overrides `Mid::F` (id 3) which overrides the root abstract slot `V::F`
(id 1), so the member transitively overrides slot 1; yet `getOverridenMethods`
collects only the direct level, the satisfied set is `[3]`, id 1 is not in
it, and a stub for `F` is generated. -/
theorem c3_transitive_override_counterexample :
    mC3TF ∈ recC3T.methods ∧ mC3TF.overridden = [3] ∧ mC3MidF.canonId = 3 ∧
    mC3MidF.overridden = [1] ∧ mC3F.canonId = 1 ∧
    getOverridenMethods recC3T = [3] ∧
    missingOf recC3T = some [mC3F, mC3G] := by decide

/-- C3 amended: only direct overrides are honoured — if a member of the
target directly overrides canonical identity `x`, then no operation with
identity `x` survives into the missing set; identities overridden only
transitively are not excluded (see the counterexample). -/
theorem c3_direct_overrides_excluded (d : CXXRecordDecl) (M : MethodDecl)
    (x : Nat) (ms : List MethodDecl) (hM : M ∈ d.methods)
    (hx : x ∈ M.overridden) (hms : missingOf d = some ms) :
    ∀ m ∈ ms, m.canonId ≠ x := by
  intro m hm hcanon
  simp only [missingOf] at hms
  obtain ⟨bs, _, hf⟩ := Option.map_eq_some'.mp hms
  rw [← hf] at hm
  have hpred := (List.mem_filter.mp hm).2
  have hxmem : x ∈ getOverridenMethods d := by
    unfold getOverridenMethods
    exact List.mem_flatten.mpr ⟨M.overridden, List.mem_map_of_mem _ hM, hx⟩
  have hc : (getOverridenMethods d).contains x = true :=
    List.elem_eq_true_of_mem hxmem
  rw [hcanon, hc] at hpred
  simp at hpred

/-- Witness for the C3 amended theorem at the concrete hierarchy: the member
`mC3TF` directly overrides identity 3, hence `mC3F` (which is in the missing
set) cannot carry identity 3. -/
theorem c3_direct_overrides_excluded_witness : mC3F.canonId ≠ 3 :=
  c3_direct_overrides_excluded recC3T mC3TF 3 [mC3F, mC3G]
    (by decide) (by decide) (by decide) mC3F (by decide)

/-- C4: refuted on the code; this theorem evaluates the embedded `prepare`
at the failing input.  `Derived`'s member `F` overrides the only inherited
pure-virtual operation (missing set empty, second conjunct), yet `prepare`
returns true because it only tests whether some direct base is abstract —
contradicting the claim (and the comment above `prepare` in the source). -/
theorem c4_available_without_missing_ops :
    prepare (some (some recC4Der)) = true ∧
    missingOf recC4Der = some [] := by decide

/-- C5 counterexample: on the hierarchy `Derived : Base` with pure virtual
`Base::F1`, the edit inserts exactly the `F1` stub; the re-parsed result
`recC5After` implements every inherited abstract operation (missing set
empty), yet re-running the availability check still returns true — not
"not available" as the claim states. -/
theorem c5_availability_after_edit_counterexample :
    applyTweak recC5Der = some ⟨61, 0, renderMethod mC5F1⟩ ∧
    missingOf recC5After = some [] ∧
    prepare (some (some recC5After)) = true := by decide

/-- C5 amended: after applying the edit the availability check returns
exactly what it returned before, because `prepare` tests only for an
abstract direct base and the insert-only edit leaves the base list
untouched; it does not become "not available". -/
theorem c5_prepare_unchanged_by_added_members (d : CXXRecordDecl)
    (ms : List MethodDecl) :
    prepare (some (some (addMethods d ms))) = prepare (some (some d)) := rfl

/-- C6: refuted on the code; this theorem evaluates the embedded `preApply`
at the failing input.  With a direct base whose referenced declaration
cannot be resolved, `preApply` runs
`Base.getType()->getAsCXXRecordDecl()->getCanonicalDecl()` — a null-pointer
dereference (modelled as `none`), so `apply` crashes instead of skipping the
base silently. -/
theorem c6_unresolved_base_crashes :
    missingOf recC6T = none ∧ applyTweak recC6T = none := by decide

/-- C7 confirmed: the source renderer produces exactly the claim's fragment —
return type, space, name, parenthesised parameters each rendered as
type-space-name joined by `", "`, `"const "` exactly when const-qualified,
then `override` and a placeholder body whose compile-time assertion names
the method, terminated by a newline; fragments are concatenated in
missing-set order, and `const int & P2` renders as claimed. -/
theorem c7_stub_rendering (m : MethodDecl) (ms : List MethodDecl) :
    renderMethod m = renderMethodSpec m ∧
    (∃ a b : String,
      renderMethod m =
        a ++ ("static_assert(false, \"`" ++ (m.name ++ ("`" ++ b)))) ∧
    (∃ a : String, renderMethod m = a ++ "\n") ∧
    renderParam ("const int &", "P2") = "const int & P2" ∧
    insertionText ms = specConcat ms := by
  refine ⟨renderMethod_eq_renderMethodSpec m, ?_, ?_, rfl,
    insertionText_eq_specConcat ms⟩
  · refine ⟨m.retType ++ " " ++ m.name ++ "(" ++
      String.intercalate ", " (m.params.map renderParam) ++ ") " ++
      (if m.isConst then "const " else "") ++ "override \x7b ",
      " is unimplemented.\"); \x7d\n", ?_⟩
    unfold renderMethod
    simp [String.append_assoc]
    rfl
  · refine ⟨m.retType ++ " " ++ m.name ++ "(" ++
      String.intercalate ", " (m.params.map renderParam) ++ ") " ++
      (if m.isConst then "const " else "") ++
      "override \x7b static_assert(false, \"`" ++ m.name ++
      "` is unimplemented.\"); \x7d", ?_⟩
    unfold renderMethod
    simp [String.append_assoc]

/-- C8 counterexample: with the `public:` colon at offset 19 immediately
before the closing brace at offset 20, the chosen position is 21 — outside
the class body — and is not the position immediately after the section's
marker (the colon), which would be 20. -/
theorem c8_insertion_point_counterexample :
    insertLocOf recC8Pub = 21 ∧ recC8Pub.braceEnd = 20 ∧
    ¬(insertLocOf recC8Pub ≤ recC8Pub.braceEnd) ∧
    getSpecifierLocations recC8Pub AccessSpec.AS_public = some 19 ∧
    insertLocOf recC8Pub ≠ 19 + 1 := by decide

/-- C8 amended: when no `public` section exists the position is one byte
past the opening brace and lies strictly inside a nonempty body; when a
`public` section exists the position is two bytes past its colon — one byte
beyond "immediately after the marker", and possibly outside the body (see
the counterexample). -/
theorem c8_insertion_point_characterization (d : CXXRecordDecl) :
    (getSpecifierLocations d AccessSpec.AS_public = none →
      insertLocOf d = d.braceBegin + 1 ∧
      (d.braceBegin < d.braceEnd →
        d.braceBegin < insertLocOf d ∧ insertLocOf d ≤ d.braceEnd)) ∧
    (∀ c, getSpecifierLocations d AccessSpec.AS_public = some c →
      insertLocOf d = c + 2) := by
  constructor
  · intro h
    unfold insertLocOf
    rw [h]
    refine ⟨rfl, fun hb => ?_⟩
    show d.braceBegin < d.braceBegin + 1 ∧ d.braceBegin + 1 ≤ d.braceEnd
    omega
  · intro c h
    unfold insertLocOf
    rw [h]

/-- Witness for the C8 amended theorem: the fallback position at
`recC8NoPub` is 11, strictly inside the body (10, 20]; the public-section
position at `recC8Pub` is its colon 19 plus 2. -/
theorem c8_insertion_point_characterization_witness :
    insertLocOf recC8NoPub = 11 ∧ 10 < insertLocOf recC8NoPub ∧
    insertLocOf recC8NoPub ≤ 20 ∧ insertLocOf recC8Pub = 21 := by
  have h1 := (c8_insertion_point_characterization recC8NoPub).1 (by decide)
  have h2 := (c8_insertion_point_characterization recC8Pub).2 19 (by decide)
  have h3 := h1.2 (by decide)
  exact ⟨h1.1, h3.1, h3.2, h2⟩

/-- C9 confirmed: every emitted effect is a single zero-length (insert-only)
replacement; applying it to any source text keeps the entire original text
(split as prefix and suffix around the insertion point) unchanged and in
order, and when the missing set is empty the edit leaves the source
identical. -/
theorem c9_insert_only (d : CXXRecordDecl) (r : Replacement)
    (h : applyTweak d = some r) :
    r.length = 0 ∧
    (∀ s : List Char, ∃ pre suf : List Char,
        s = pre ++ suf ∧ applyEdit s r = pre ++ r.text.data ++ suf) ∧
    (missingOf d = some [] → ∀ s : List Char, applyEdit s r = s) := by
  simp only [applyTweak] at h
  obtain ⟨ms, hms, hr⟩ := Option.map_eq_some'.mp h
  refine ⟨by rw [← hr], ?_, ?_⟩
  · intro s
    refine ⟨s.take r.offset, s.drop r.offset,
      (List.take_append_drop _ s).symm, ?_⟩
    rw [← hr]
    simp [applyEdit]
  · intro hempty s
    rw [hms] at hempty
    injection hempty with hms0
    rw [← hr, hms0]
    simp [applyEdit, insertionText]

/-- Witness for C9 at the concrete class `recC9` (no bases, so the missing
set is empty and the edit inserts the empty string at offset 1): the
replacement has length 0 and applying it changes nothing. -/
theorem c9_insert_only_witness :
    (⟨1, 0, ""⟩ : Replacement).length = 0 ∧
    applyEdit "ab".data ⟨1, 0, ""⟩ = "ab".data := by
  have h := c9_insert_only recC9 ⟨1, 0, ""⟩ (by decide)
  exact ⟨h.1, h.2.2 (by decide) "ab".data⟩

/-- C10 counterexample: with two `public` sections (colons at 5 and 20), the
recorded location is that of the second occurrence, 20, not the first, 5 —
and the insertion point is 22, not 7. -/
theorem c10_first_occurrence_counterexample :
    getSpecifierLocations recC10 AccessSpec.AS_public = some 20 ∧
    getSpecifierLocations recC10 AccessSpec.AS_public ≠ some 5 ∧
    insertLocOf recC10 = 22 ∧ insertLocOf recC10 ≠ 5 + 2 := by decide

/-- C10 amended: the `std::map` assignment overwrites, so the position
recorded for a visibility kind is that of the LAST occurrence in the body,
and for duplicate public sections the insertion point is the last public
colon plus 2. -/
theorem c10_last_occurrence_wins (d : CXXRecordDecl) (k : AccessSpec) :
    getSpecifierLocations d k = lastLoc d.accessSpecDecls k ∧
    insertLocOf d =
      (match lastLoc d.accessSpecDecls AccessSpec.AS_public with
       | some c => c + 2
       | none => d.braceBegin + 1) := by
  have haux : ∀ q, getSpecifierLocations d q = lastLoc d.accessSpecDecls q := by
    intro q
    unfold getSpecifierLocations
    rw [foldl_mapStore_lookup]
    cases lastLoc d.accessSpecDecls q <;> rfl
  refine ⟨haux k, ?_⟩
  unfold insertLocOf
  rw [haux]
